import Mathlib

/-!
Shallow embedding of the FastAPIServer authentication/authorization core:
the user data model (`app/models/__init__.py`), the in-memory credential
store (`app/services/user_service.py`), the access-guard dependency chain
(`app/api/auth.py`, `app/api/users.py`), and — since `app/core/security.py`
is not part of the source tree — a Credential Hasher and Token Codec
modelled from the specification's component contracts.

Machine integers do not overflow in any relevant path, so ids, times and
pagination indices are embedded as `Nat`; the wall clock (`datetime.utcnow`)
and the hasher's salt are passed in as explicit parameters.
-/

set_option autoImplicit false

namespace FastAPIServer

/-- Enumeration `UserRole` from `app/models/__init__.py`. -/
inductive UserRole where
  | admin
  | user
  | moderator
deriving DecidableEq, Repr

/-- Modelled from the spec: `app/core/security.py` is absent from the source
tree. The Credential Hasher's digest is "opaque"; per §4.1 it is a salted
one-way transform of the plaintext, so the model records the salt and the
originating plaintext. -/
structure Digest where
  salt : Nat
  plaintext : String
deriving DecidableEq, Repr

/-- Modelled from the spec: `get_password_hash` of the absent
`app/core/security.py`. §4.1 `hash(plaintext) -> opaque digest`; the salt is
the call's internal randomness, passed explicitly. -/
def get_password_hash (salt : Nat) (plaintext : String) : Digest :=
  ⟨salt, plaintext⟩

/-- Modelled from the spec: `verify_password` of the absent
`app/core/security.py`. §4.1 `verify(plaintext, digest)` is "true iff
`digest` was produced from `plaintext`". -/
def verify_password (plaintext : String) (digest : Digest) : Bool :=
  digest.plaintext == plaintext

/-- Model `User`, the response model (`UserBase` fields plus `id`, `created_at`,
`updated_at`); it has no `hashed_password` field. -/
structure User where
  username : String
  email : String
  full_name : Option String
  role : UserRole
  is_active : Bool
  id : Nat
  created_at : Nat
  updated_at : Option Nat
deriving DecidableEq, Repr

/-- Model `UserInDB`, the internal record: the `User` fields plus `hashed_password`. -/
structure UserInDB where
  username : String
  email : String
  full_name : Option String
  role : UserRole
  is_active : Bool
  id : Nat
  created_at : Nat
  updated_at : Option Nat
  hashed_password : Digest
deriving DecidableEq, Repr

/-- Python expression `User(**user_in_db.dict(exclude=\x7b"hashed_password"\x7d))`: build the
response view from the stored record, dropping the hash. -/
def UserInDB.toUser (u : UserInDB) : User :=
  ⟨u.username, u.email, u.full_name, u.role, u.is_active, u.id,
    u.created_at, u.updated_at⟩

/-- Model `UserCreate`, the request model: `UserBase` fields plus `password`.
Defaults as in `UserBase`: `role = user`, `is_active = True`. -/
structure UserCreate where
  username : String
  email : String
  full_name : Option String := none
  role : UserRole := .user
  is_active : Bool := true
  password : String
deriving DecidableEq, Repr

/-- Model `UserUpdate`, the request model: every field optional; `none` means the field
was not supplied (pydantic `exclude_unset`). `full_name` can be explicitly
set to null, hence its doubled `Option`. -/
structure UserUpdate where
  email : Option String := none
  full_name : Option (Option String) := none
  role : Option UserRole := none
  is_active : Option Bool := none
deriving DecidableEq, Repr

/-- A raised `fastapi.HTTPException`, as a value. -/
structure HTTPException where
  status_code : Nat
  detail : String
deriving DecidableEq, Repr

/-- The mutable state of `UserService`: the `_users` list (in creation
order) and the `_next_id` counter. -/
structure UserService where
  users : List UserInDB
  next_id : Nat
deriving DecidableEq, Repr

/-- Method `UserService.get_user_by_username`: first stored record with the given
username, hash included. -/
def get_user_by_username (s : UserService) (username : String) :
    Option UserInDB :=
  s.users.find? (fun u => u.username == username)

/-- Method `UserService.get_user_by_email`: first stored record with the given
email, hash included. -/
def get_user_by_email (s : UserService) (email : String) : Option UserInDB :=
  s.users.find? (fun u => u.email == email)

/-- Method `UserService.get_user_by_id`: first stored record with the given id,
hash stripped. -/
def get_user_by_id (s : UserService) (user_id : Nat) : Option User :=
  (s.users.find? (fun u => u.id == user_id)).map UserInDB.toUser

/-- The `UserInDB(...)` literal built inside `create_user`: the request's
fields, the next id, `created_at = now`, and the freshly hashed password. -/
def newRecord (s : UserService) (now salt : Nat) (uc : UserCreate) : UserInDB :=
  ⟨uc.username, uc.email, uc.full_name, uc.role, uc.is_active,
    s.next_id, now, none, get_password_hash salt uc.password⟩

/-- Method `UserService.create_user`: duplicate-username check, then
duplicate-email check (each raising 400 before any mutation), then append a
new record with the next id and return its hash-stripped view. `now` stands
for `datetime.utcnow()`, `salt` for the hasher's internal randomness. -/
def create_user (s : UserService) (now salt : Nat) (uc : UserCreate) :
    Except HTTPException User × UserService :=
  if (get_user_by_username s uc.username).isSome then
    (.error ⟨400, "Username already registered"⟩, s)
  else if (get_user_by_email s uc.email).isSome then
    (.error ⟨400, "Email already registered"⟩, s)
  else
    let user_in_db : UserInDB := newRecord s now salt uc
    (.ok user_in_db.toUser, ⟨s.users ++ [user_in_db], s.next_id + 1⟩)

/-- Method `UserService.authenticate_user`: look up by username; `None` when the
username is absent, `None` when the password does not verify, otherwise the
hash-bearing record. -/
def authenticate_user (s : UserService) (username password : String) :
    Option UserInDB :=
  match get_user_by_username s username with
  | none => none
  | some user =>
    if verify_password password user.hashed_password then some user else none

/-- Method `UserService.get_users`: the Python slice `_users[skip:skip + limit]`
(for the non-negative `skip`/`limit` the endpoint admits), hash-stripped. -/
def get_users (s : UserService) (skip : Nat := 0) (limit : Nat := 100) :
    List User :=
  ((s.users.drop skip).take limit).map UserInDB.toUser

/-- Python expression `user.copy(update=update_data)` where `update_data` is the set fields of
the `UserUpdate` plus `updated_at = now`. -/
def applyUpdate (u : UserInDB) (now : Nat) (up : UserUpdate) : UserInDB :=
  { u with
    email := up.email.getD u.email
    full_name := up.full_name.getD u.full_name
    role := up.role.getD u.role
    is_active := up.is_active.getD u.is_active
    updated_at := some now }

/-- The loop of `UserService.update_user`: replace the first record with the
matching id by its updated copy, returning the hash-stripped view. -/
def updateGo (user_id now : Nat) (up : UserUpdate) :
    List UserInDB → Option (User × List UserInDB)
  | [] => none
  | u :: rest =>
    if u.id == user_id then
      let u' := applyUpdate u now up
      some (u'.toUser, u' :: rest)
    else
      (updateGo user_id now up rest).map (fun p => (p.1, u :: p.2))

/-- Method `UserService.update_user`: partial update of the first record with the
matching id; `None` (state unchanged) when no record matches. -/
def update_user (s : UserService) (now user_id : Nat) (up : UserUpdate) :
    Option User × UserService :=
  match updateGo user_id now up s.users with
  | none => (none, s)
  | some (u, l) => (some u, ⟨l, s.next_id⟩)

/-- The loop of `UserService.delete_user`: remove the first record with the
matching id, reporting whether one was found. -/
def deleteGo (user_id : Nat) : List UserInDB → Bool × List UserInDB
  | [] => (false, [])
  | u :: rest =>
    if u.id == user_id then (true, rest)
    else
      let p := deleteGo user_id rest
      (p.1, u :: p.2)

/-- Method `UserService.delete_user`: delete by id; ids are never renumbered. -/
def delete_user (s : UserService) (user_id : Nat) : Bool × UserService :=
  let p := deleteGo user_id s.users
  (p.1, ⟨p.2, s.next_id⟩)

/-- The `UserCreate` for the default admin in `_create_default_users`. -/
def adminCreate : UserCreate :=
  { username := "admin", email := "admin@example.com",
    password := "admin123", full_name := some "Administrator",
    role := .admin }

/-- The `UserCreate` for the default regular user in
`_create_default_users`. -/
def johnCreate : UserCreate :=
  { username := "john_doe", email := "john@example.com",
    password := "user123", full_name := some "John Doe",
    role := .user }

/-- Constructor `UserService.__init__`: empty list, `_next_id = 1`, then
`_create_default_users` registers the admin and the regular user. The two
creation times and salts are parameters of the run. -/
def initStore (t1 s1 t2 s2 : Nat) : UserService :=
  let empty : UserService := ⟨[], 1⟩
  match create_user empty t1 s1 adminCreate with
  | (_, s) =>
    match create_user s t2 s2 johnCreate with
    | (_, s') => s'

/-- A serialized field value, for modelling pydantic `.dict()` output. -/
inductive FieldVal where
  | s (v : String)
  | os (v : Option String)
  | n (v : Nat)
  | on (v : Option Nat)
  | b (v : Bool)
  | r (v : UserRole)
  | d (v : Digest)
deriving DecidableEq, Repr

/-- Serialization `User.dict()`: the serialized response-facing view, fields in pydantic
declaration order. -/
def User.toDict (u : User) : List (String × FieldVal) :=
  [("username", .s u.username), ("email", .s u.email),
   ("full_name", .os u.full_name), ("role", .r u.role),
   ("is_active", .b u.is_active), ("id", .n u.id),
   ("created_at", .n u.created_at), ("updated_at", .on u.updated_at)]

/-- Serialization `UserInDB.dict()`: the internal serialization, hash included. -/
def UserInDB.toDict (u : UserInDB) : List (String × FieldVal) :=
  [("username", .s u.username), ("email", .s u.email),
   ("full_name", .os u.full_name), ("role", .r u.role),
   ("is_active", .b u.is_active), ("id", .n u.id),
   ("created_at", .n u.created_at), ("updated_at", .on u.updated_at),
   ("hashed_password", .d u.hashed_password)]

/-- Operation `dict(exclude=\x7b"hashed_password"\x7d)`: drop the excluded key. -/
def excludeKey (key : String) (l : List (String × FieldVal)) :
    List (String × FieldVal) :=
  l.filter (fun kv => kv.1 != key)

/-- Dependency `get_current_active_user` (`app/api/auth.py`): raise
`HTTPException(400, "Inactive user")` when the principal is inactive;
otherwise pass the principal through. -/
def get_current_active_user (current_user : User) :
    Except HTTPException User :=
  if !current_user.is_active then .error ⟨400, "Inactive user"⟩
  else .ok current_user

/-- Dependency `get_admin_user` (`app/api/users.py`): depends on
`get_current_active_user` (so the active-check runs first), then raises
`HTTPException(403, "Not enough permissions")` unless the role is admin. -/
def get_admin_user (current_user : User) : Except HTTPException User :=
  (get_current_active_user current_user).bind (fun cu =>
    if cu.role ≠ UserRole.admin then
      .error ⟨403, "Not enough permissions"⟩
    else .ok cu)

/-- The `PUT /users/\x7buser_id\x7d` endpoint (`app/api/users.py`
`update_user`): principal resolved through `get_current_active_user`;
non-admins may only update their own id (else 403); then the service's
`update_user` runs, `None` becoming a 404. -/
def update_user_endpoint (s : UserService) (now : Nat) (current_user : User)
    (user_id : Nat) (up : UserUpdate) : Except HTTPException User × UserService :=
  match get_current_active_user current_user with
  | .error e => (.error e, s)
  | .ok cu =>
    if cu.id ≠ user_id ∧ cu.role ≠ UserRole.admin then
      (.error ⟨403, "Not enough permissions"⟩, s)
    else
      match update_user s now user_id up with
      | (none, s') => (.error ⟨404, "User not found"⟩, s')
      | (some u, s') => (.ok u, s')

/-- Modelled from the spec: the Token Codec of the absent
`app/core/security.py`. §4.2: the opaque signed payload carries `subject`,
`issuedAt`, `expiresAt`. -/
structure TokenPayload where
  subject : String
  issuedAt : Nat
  expiresAt : Nat
deriving DecidableEq, Repr

/-- Modelled from the spec: a signed token. The signature "covers subject
and both timestamps" under the process-wide secret, so it is modelled as
the secret paired with the signed payload; any payload mutation invalidates
it. -/
structure SignedToken where
  payload : TokenPayload
  sig : String × TokenPayload
deriving DecidableEq, Repr

/-- Modelled from the spec: the signing primitive of the Token Codec. -/
def signPayload (secret : String) (p : TokenPayload) : String × TokenPayload :=
  (secret, p)

/-- Modelled from the spec: `issue(subject, now, ttl)` of the absent Token
Codec (`create_access_token`): `issuedAt = now`, `expiresAt = now + ttl`,
payload signed with the process secret. -/
def issue (secret subject : String) (now ttl : Nat) : SignedToken :=
  let p : TokenPayload := ⟨subject, now, now + ttl⟩
  ⟨p, signPayload secret p⟩

/-- Outcome of Token Codec `verify` per §4.2 / §7. -/
inductive VerifyResult where
  | ok (subject : String)
  | malformed
  | expired
deriving DecidableEq, Repr

/-- Modelled from the spec: `verify(token, now)` of the absent Token Codec
(`verify_token`). §4.2: `Malformed` when the signature does not match,
`Expired` when `now > expiresAt`, otherwise the subject only. -/
def verify (secret : String) (t : SignedToken) (now : Nat) : VerifyResult :=
  if t.sig ≠ signPayload secret t.payload then .malformed
  else if now > t.payload.expiresAt then .expired
  else .ok t.payload.subject

/-- No two stored accounts share a username. -/
def usernamesUnique (s : UserService) : Prop :=
  (s.users.map (fun u => u.username)).Nodup

/-- No two stored accounts share an email. -/
def emailsUnique (s : UserService) : Prop :=
  (s.users.map (fun u => u.email)).Nodup

instance (s : UserService) : Decidable (usernamesUnique s) :=
  List.nodupDecidable _

instance (s : UserService) : Decidable (emailsUnique s) :=
  List.nodupDecidable _

/-- The store states reachable from a fresh `UserService()` by runs of its
mutating operations, at arbitrary clock values and hasher salts. -/
inductive Reachable : UserService → Prop where
  | init (t1 s1 t2 s2 : Nat) : Reachable (initStore t1 s1 t2 s2)
  | create {s : UserService} (now salt : Nat) (uc : UserCreate) :
      Reachable s → Reachable (create_user s now salt uc).2
  | update {s : UserService} (now user_id : Nat) (up : UserUpdate) :
      Reachable s → Reachable (update_user s now user_id up).2
  | delete {s : UserService} (user_id : Nat) :
      Reachable s → Reachable (delete_user s user_id).2

theorem initStore_users (t1 s1 t2 s2 : Nat) :
    (initStore t1 s1 t2 s2).users =
      [⟨"admin", "admin@example.com", some "Administrator", .admin, true,
          1, t1, none, ⟨s1, "admin123"⟩⟩,
        ⟨"john_doe", "john@example.com", some "John Doe", .user, true,
          2, t2, none, ⟨s2, "user123"⟩⟩] := by
  simp [initStore, create_user, newRecord, adminCreate, johnCreate,
    get_user_by_username, get_user_by_email, get_password_hash]

theorem initStore_next_id (t1 s1 t2 s2 : Nat) :
    (initStore t1 s1 t2 s2).next_id = 3 := by
  simp [initStore, create_user, newRecord, adminCreate, johnCreate,
    get_user_by_username, get_user_by_email]

theorem applyUpdate_username (u : UserInDB) (now : Nat) (up : UserUpdate) :
    (applyUpdate u now up).username = u.username := rfl

theorem applyUpdate_id (u : UserInDB) (now : Nat) (up : UserUpdate) :
    (applyUpdate u now up).id = u.id := rfl

theorem updateGo_map_username (user_id now : Nat) (up : UserUpdate) :
    ∀ (l : List UserInDB) (p : User × List UserInDB),
      updateGo user_id now up l = some p →
      p.2.map (fun u => u.username) = l.map (fun u => u.username) := by
  intro l
  induction l with
  | nil => intro p h; simp [updateGo] at h
  | cons u rest ih =>
    intro p h
    by_cases hid : (u.id == user_id) = true
    · simp [updateGo, hid] at h
      subst h
      simp [applyUpdate_username]
    · simp [updateGo, hid] at h
      obtain ⟨q, l', hrec, hp⟩ := h
      subst hp
      simp [ih _ hrec]

theorem deleteGo_sublist (user_id : Nat) :
    ∀ l : List UserInDB, (deleteGo user_id l).2.Sublist l := by
  intro l
  induction l with
  | nil => simp [deleteGo]
  | cons u rest ih =>
    by_cases hid : (u.id == user_id) = true
    · simp [deleteGo, hid]
    · simp [deleteGo, hid]
      exact ih

theorem usernamesUnique_create (s : UserService) (now salt : Nat)
    (uc : UserCreate) (h : usernamesUnique s) :
    usernamesUnique (create_user s now salt uc).2 := by
  by_cases h1 : (get_user_by_username s uc.username).isSome = true
  · simpa [create_user, h1] using h
  · by_cases h2 : (get_user_by_email s uc.email).isSome = true
    · simpa [create_user, h1, h2] using h
    · simp only [usernamesUnique, create_user, h1, h2, Bool.false_eq_true,
        if_false, List.map_append, List.map_cons, List.map_nil]
      refine h.append (List.nodup_singleton _) ?_
      rw [List.disjoint_singleton]
      intro hmem
      rw [List.mem_map] at hmem
      obtain ⟨u, hu, hname⟩ := hmem
      have hnone : s.users.find? (fun u => u.username == uc.username) = none := by
        have h1' := Option.not_isSome_iff_eq_none.mp h1
        simpa [get_user_by_username] using h1'
      have hall := List.find?_eq_none.mp hnone u hu
      simp [hname, newRecord] at hall

theorem emailsUnique_create (s : UserService) (now salt : Nat)
    (uc : UserCreate) (h : emailsUnique s) :
    emailsUnique (create_user s now salt uc).2 := by
  by_cases h1 : (get_user_by_username s uc.username).isSome = true
  · simpa [create_user, h1] using h
  · by_cases h2 : (get_user_by_email s uc.email).isSome = true
    · simpa [create_user, h1, h2] using h
    · simp only [emailsUnique, create_user, h1, h2, Bool.false_eq_true,
        if_false, List.map_append, List.map_cons, List.map_nil]
      refine h.append (List.nodup_singleton _) ?_
      rw [List.disjoint_singleton]
      intro hmem
      rw [List.mem_map] at hmem
      obtain ⟨u, hu, hmail⟩ := hmem
      have hnone : s.users.find? (fun u => u.email == uc.email) = none := by
        have h2' := Option.not_isSome_iff_eq_none.mp h2
        simpa [get_user_by_email] using h2'
      have hall := List.find?_eq_none.mp hnone u hu
      simp [hmail, newRecord] at hall

theorem usernamesUnique_update (s : UserService) (now user_id : Nat)
    (up : UserUpdate) (h : usernamesUnique s) :
    usernamesUnique (update_user s now user_id up).2 := by
  rcases hgo : updateGo user_id now up s.users with _ | p
  · simpa [update_user, hgo] using h
  · simp only [update_user, hgo, usernamesUnique]
    rw [updateGo_map_username user_id now up s.users p hgo]
    exact h

theorem usernamesUnique_delete (s : UserService) (user_id : Nat)
    (h : usernamesUnique s) : usernamesUnique (delete_user s user_id).2 := by
  exact List.Nodup.sublist
    (List.Sublist.map _ (deleteGo_sublist user_id s.users)) h

theorem reachable_usernamesUnique (s : UserService) (h : Reachable s) :
    usernamesUnique s := by
  induction h with
  | init t1 s1 t2 s2 =>
    simp only [usernamesUnique, initStore_users, List.map_cons, List.map_nil]
    decide
  | create now salt uc _ ih => exact usernamesUnique_create _ now salt uc ih
  | update now user_id up _ ih =>
    exact usernamesUnique_update _ now user_id up ih
  | delete user_id _ ih => exact usernamesUnique_delete _ user_id ih

theorem updateGo_isSome (user_id now : Nat) (up : UserUpdate) :
    ∀ l : List UserInDB,
      (updateGo user_id now up l).isSome =
        (l.find? (fun u => u.id == user_id)).isSome := by
  intro l
  induction l with
  | nil => simp [updateGo]
  | cons u rest ih =>
    by_cases hid : (u.id == user_id) = true
    · simp [updateGo, hid, List.find?_cons_of_pos _ hid]
    · rw [List.find?_cons_of_neg _ (by simpa using hid)]
      simpa [updateGo, hid] using ih

theorem updateGo_spec (user_id now : Nat) (up : UserUpdate) :
    ∀ (l : List UserInDB) (p : User × List UserInDB),
      updateGo user_id now up l = some p →
      ∃ a, l.find? (fun u => u.id == user_id) = some a ∧
        p.1 = (applyUpdate a now up).toUser ∧
        p.2.find? (fun u => u.id == user_id) = some (applyUpdate a now up) := by
  intro l
  induction l with
  | nil => intro p h; simp [updateGo] at h
  | cons u rest ih =>
    intro p h
    by_cases hid : (u.id == user_id) = true
    · simp [updateGo, hid] at h
      subst h
      refine ⟨u, List.find?_cons_of_pos _ hid, rfl, ?_⟩
      have : ((applyUpdate u now up).id == user_id) = true := by
        rw [applyUpdate_id]; exact hid
      exact List.find?_cons_of_pos _ this
    · simp [updateGo, hid] at h
      obtain ⟨q, l', hrec, hp⟩ := h
      subst hp
      obtain ⟨a, hfind, hview, hfind'⟩ := ih _ hrec
      refine ⟨a, ?_, hview, ?_⟩
      · rw [List.find?_cons_of_neg _ (by simpa using hid)]
        exact hfind
      · rw [List.find?_cons_of_neg _ (by simpa using hid)]
        exact hfind'

/-- C1: for every username, email and password with password length at
least 6 such that no existing account has that username or that email,
`create_user` succeeds, and a subsequent `authenticate_user` with the same
username and password succeeds and returns the (newly stored) account with
that username. -/
theorem register_then_authenticate (s : UserService) (now salt : Nat)
    (uc : UserCreate) (hlen : 6 ≤ uc.password.length)
    (hu : get_user_by_username s uc.username = none)
    (he : get_user_by_email s uc.email = none) :
    ∃ (u : User) (s' : UserService),
      create_user s now salt uc = (.ok u, s') ∧
      authenticate_user s' uc.username uc.password =
        some (newRecord s now salt uc) ∧
      (newRecord s now salt uc).username = uc.username ∧
      (newRecord s now salt uc).id = u.id := by
  have h1 : (get_user_by_username s uc.username).isSome = false := by
    simp [hu]
  have h2 : (get_user_by_email s uc.email).isSome = false := by
    simp [he]
  refine ⟨(newRecord s now salt uc).toUser,
    ⟨s.users ++ [newRecord s now salt uc], s.next_id + 1⟩, ?_, ?_, rfl, rfl⟩
  · simp [create_user, h1, h2]
  · have hn : List.find? (fun u => u.username == uc.username) s.users =
        none := by
      simpa [get_user_by_username] using hu
    simp [authenticate_user, get_user_by_username, List.find?_append, hn,
      verify_password, newRecord, get_password_hash]

theorem register_then_authenticate_witness :
    ∃ (u : User) (s' : UserService),
      create_user (initStore 0 0 0 0) 7 9
          { username := "alice", email := "alice@x.com",
            password := "secret1" } = (.ok u, s') ∧
      authenticate_user s'
          ({ username := "alice", email := "alice@x.com",
             password := "secret1" } : UserCreate).username
          ({ username := "alice", email := "alice@x.com",
             password := "secret1" } : UserCreate).password =
        some (newRecord (initStore 0 0 0 0) 7 9
          { username := "alice", email := "alice@x.com",
            password := "secret1" }) ∧
      (newRecord (initStore 0 0 0 0) 7 9
          { username := "alice", email := "alice@x.com",
            password := "secret1" }).username =
        ({ username := "alice", email := "alice@x.com",
           password := "secret1" } : UserCreate).username ∧
      (newRecord (initStore 0 0 0 0) 7 9
          { username := "alice", email := "alice@x.com",
            password := "secret1" }).id = u.id :=
  register_then_authenticate (initStore 0 0 0 0) 7 9
    { username := "alice", email := "alice@x.com", password := "secret1" }
    (by decide) (by decide) (by decide)

/-- C2 (amended): `authenticate_user` fails when the username is absent and
fails when the stored hash does not verify against the supplied password,
but the two failures are one and the same outcome `none`
(`Optional[UserInDB]` carries no failure kind); the claim that it
distinguishes `NotFound` from `BadPassword` as distinct outcomes fails. -/
theorem authenticate_failure_modes (s : UserService)
    (username password : String) :
    (get_user_by_username s username = none →
      authenticate_user s username password = none) ∧
    (∀ udb, get_user_by_username s username = some udb →
      verify_password password udb.hashed_password = false →
      authenticate_user s username password = none) := by
  constructor
  · intro h
    simp [authenticate_user, h]
  · intro udb h hv
    simp [authenticate_user, h, hv]

theorem authenticate_failure_modes_witness :
    authenticate_user (initStore 0 0 0 0) "nobody" "pw" = none ∧
    authenticate_user (initStore 0 0 0 0) "admin" "wrongpw" = none :=
  ⟨(authenticate_failure_modes (initStore 0 0 0 0) "nobody" "pw").1
      (by decide),
    (authenticate_failure_modes (initStore 0 0 0 0) "admin" "wrongpw").2
      ⟨"admin", "admin@example.com", some "Administrator", .admin, true, 1,
        0, none, ⟨0, "admin123"⟩⟩ (by decide) (by decide)⟩

/-- C2 counterexample: on the default store, the unknown-username failure
and the registered-username-wrong-password failure produce the identical
result `none` — they are not distinct outcomes. -/
theorem authenticate_failure_kinds_counterexample :
    get_user_by_username (initStore 0 0 0 0) "nobody" = none ∧
    (get_user_by_username (initStore 0 0 0 0) "admin").isSome = true ∧
    authenticate_user (initStore 0 0 0 0) "nobody" "admin123" = none ∧
    authenticate_user (initStore 0 0 0 0) "admin" "wrong-password" = none ∧
    authenticate_user (initStore 0 0 0 0) "nobody" "admin123" =
      authenticate_user (initStore 0 0 0 0) "admin" "wrong-password" := by
  decide

/-- C3 (amended): every reachable store state has pairwise-distinct
usernames (no operation can break this: `create_user` checks, `UserUpdate`
cannot carry a username, deletion only removes), and `create_user`
preserves pairwise-distinct emails; but — per the counterexample —
`update_user` does not preserve email uniqueness. -/
theorem store_uniqueness_invariant :
    (∀ s : UserService, Reachable s → usernamesUnique s) ∧
    (∀ (s : UserService) (now salt : Nat) (uc : UserCreate),
      emailsUnique s → emailsUnique (create_user s now salt uc).2) :=
  ⟨reachable_usernamesUnique, emailsUnique_create⟩

theorem store_uniqueness_invariant_witness :
    usernamesUnique (initStore 0 0 0 0) ∧
    emailsUnique (create_user (initStore 0 0 0 0) 4 5
        { username := "alice", email := "alice@x.com",
          password := "secret1" }).2 :=
  ⟨store_uniqueness_invariant.1 _ (Reachable.init 0 0 0 0),
    store_uniqueness_invariant.2 _ 4 5 _ (by decide)⟩

/-- C3 counterexample: updating the default regular user's email to the
admin's email yields a reachable state in which two accounts share an
email — `update_user` does not preserve email uniqueness. -/
theorem email_uniqueness_counterexample :
    Reachable (update_user (initStore 0 0 0 0) 1 2
        { email := some "admin@example.com" }).2 ∧
    ¬ emailsUnique (update_user (initStore 0 0 0 0) 1 2
        { email := some "admin@example.com" }).2 :=
  ⟨Reachable.update 1 2 _ (Reachable.init 0 0 0 0), by decide⟩

theorem toUser_toDict (u : UserInDB) :
    (UserInDB.toUser u).toDict = excludeKey "hashed_password" u.toDict := rfl

/-- C4: every response-facing view of an account omits the password hash:
the serializations of the results of `create_user`, `get_user_by_id`,
`get_users` and `update_user` never contain a `hashed_password` field, for
every store state and every argument. -/
theorem response_views_omit_hash (s : UserService)
    (now salt user_id skip limit : Nat) (uc : UserCreate) (up : UserUpdate) :
    (∀ u, (create_user s now salt uc).1 = .ok u →
      "hashed_password" ∉ u.toDict.map Prod.fst) ∧
    (∀ u, get_user_by_id s user_id = some u →
      "hashed_password" ∉ u.toDict.map Prod.fst) ∧
    (∀ u, u ∈ get_users s skip limit →
      "hashed_password" ∉ u.toDict.map Prod.fst) ∧
    (∀ u, (update_user s now user_id up).1 = some u →
      "hashed_password" ∉ u.toDict.map Prod.fst) := by
  have key : ∀ u : User, "hashed_password" ∉ u.toDict.map Prod.fst := by
    intro u
    have h : u.toDict.map Prod.fst =
        ["username", "email", "full_name", "role", "is_active", "id",
          "created_at", "updated_at"] := rfl
    rw [h]
    decide
  exact ⟨fun u _ => key u, fun u _ => key u, fun u _ => key u,
    fun u _ => key u⟩

theorem response_views_omit_hash_witness :
    "hashed_password" ∉
      (User.toDict ⟨"admin", "admin@example.com", some "Administrator",
        .admin, true, 1, 0, none⟩).map Prod.fst :=
  (response_views_omit_hash (initStore 0 0 0 0) 0 0 1 0 100
      { username := "x", email := "y", password := "z" } {}).2.1
    _ (by decide)

/-- C5 (amended): the access guard evaluates the active-check before the
role-check, so an inactive principal — admin or not — is rejected by the
admin gate for inactivity, not for insufficient role; but the inactivity
rejection is HTTP 400 "Inactive user", not the 403 Forbidden that the
role-check uses. -/
theorem guard_order_active_then_role (u : User) :
    (u.is_active = false →
      get_admin_user u = .error ⟨400, "Inactive user"⟩) ∧
    (u.is_active = true → u.role ≠ .admin →
      get_admin_user u = .error ⟨403, "Not enough permissions"⟩) := by
  constructor
  · intro h
    simp [get_admin_user, get_current_active_user, h, Except.bind]
  · intro h hr
    simp [get_admin_user, get_current_active_user, h, hr, Except.bind]

theorem guard_order_witness :
    get_admin_user ⟨"admin", "admin@example.com", some "Administrator",
        .admin, false, 1, 0, none⟩ = .error ⟨400, "Inactive user"⟩ ∧
    get_admin_user ⟨"john_doe", "john@example.com", some "John Doe",
        .user, true, 2, 0, none⟩ =
      .error ⟨403, "Not enough permissions"⟩ :=
  ⟨(guard_order_active_then_role _).1 rfl,
    (guard_order_active_then_role _).2 rfl (by decide)⟩

/-- C5 counterexample: an inactive admin is rejected by the admin gate with
status code 400 ("Inactive user"), not with the 403 Forbidden the claim
asserts for the active-check. -/
theorem inactive_admin_counterexample :
    get_admin_user ⟨"admin", "admin@example.com", some "Administrator",
        .admin, false, 1, 0, none⟩ = .error ⟨400, "Inactive user"⟩ ∧
    (HTTPException.mk 400 "Inactive user").status_code ≠ 403 :=
  ⟨rfl, by decide⟩

/-- C6: the duplicate checks of `create_user` are evaluated
username-first-then-email: a colliding username fails with "Username
already registered" regardless of the email, an email-only collision fails
with "Email already registered", and a failing `create_user` leaves the
store unchanged. -/
theorem duplicate_checks_order (s : UserService) (now salt : Nat)
    (uc : UserCreate) :
    ((get_user_by_username s uc.username).isSome = true →
      create_user s now salt uc =
        (.error ⟨400, "Username already registered"⟩, s)) ∧
    (get_user_by_username s uc.username = none →
      (get_user_by_email s uc.email).isSome = true →
      create_user s now salt uc =
        (.error ⟨400, "Email already registered"⟩, s)) ∧
    (∀ e, (create_user s now salt uc).1 = .error e →
      (create_user s now salt uc).2 = s) := by
  refine ⟨?_, ?_, ?_⟩
  · intro h
    simp [create_user, h]
  · intro h1 h2
    simp [create_user, h1, h2]
  · intro e he
    by_cases h1 : (get_user_by_username s uc.username).isSome = true
    · simp [create_user, h1]
    · by_cases h2 : (get_user_by_email s uc.email).isSome = true
      · simp [create_user, h1, h2]
      · simp [create_user, h1, h2] at he

theorem duplicate_checks_order_witness :
    create_user (initStore 0 0 0 0) 3 4
        { username := "admin", email := "fresh@x.com",
          password := "longpass" } =
      (.error ⟨400, "Username already registered"⟩, initStore 0 0 0 0) ∧
    create_user (initStore 0 0 0 0) 3 4
        { username := "newname", email := "john@example.com",
          password := "longpass" } =
      (.error ⟨400, "Email already registered"⟩, initStore 0 0 0 0) ∧
    (create_user (initStore 0 0 0 0) 3 4
        { username := "admin", email := "fresh@x.com",
          password := "longpass" }).2 = initStore 0 0 0 0 :=
  ⟨(duplicate_checks_order (initStore 0 0 0 0) 3 4
      { username := "admin", email := "fresh@x.com",
        password := "longpass" }).1 (by decide),
    (duplicate_checks_order (initStore 0 0 0 0) 3 4
      { username := "newname", email := "john@example.com",
        password := "longpass" }).2.1 (by decide) (by decide),
    (duplicate_checks_order (initStore 0 0 0 0) 3 4
      { username := "admin", email := "fresh@x.com",
        password := "longpass" }).2.2
      ⟨400, "Username already registered"⟩ rfl⟩

/-- C7 (amended): token round-trip for the Token Codec modelled from §4.2:
verifying `issue(subject, now, ttl)` at any `now'` with
`now ≤ now' ≤ now + ttl` returns the subject, and at any
`now' > now + ttl` fails with `Expired` (the claim put the boundary
`now' = now + ttl` on the expired side; §4.2 expires only strictly after
`expiresAt`). -/
theorem token_roundtrip (secret subject : String) (now ttl now' : Nat) :
    (now ≤ now' → now' ≤ now + ttl →
      verify secret (issue secret subject now ttl) now' = .ok subject) ∧
    (now' > now + ttl →
      verify secret (issue secret subject now ttl) now' = .expired) := by
  constructor
  · intro h1 h2
    simp [verify, issue, signPayload, Nat.not_lt.mpr h2]
  · intro h
    simp [verify, issue, signPayload, h]

theorem token_roundtrip_witness :
    verify "secret-key" (issue "secret-key" "alice" 10 30) 25 =
      .ok "alice" ∧
    verify "secret-key" (issue "secret-key" "alice" 10 30) 41 = .expired :=
  ⟨(token_roundtrip "secret-key" "alice" 10 30 25).1 (by decide) (by decide),
    (token_roundtrip "secret-key" "alice" 10 30 41).2 (by decide)⟩

/-- C7 counterexample: at `now' = now + ttl` exactly (issue at 0 with ttl 5,
verify at 5), the token modelled from §4.2 still verifies to its subject —
it does not fail `Expired` as the claim requires for `now' ≥ now + ttl`. -/
theorem token_expiry_boundary_counterexample :
    0 + 5 ≤ 5 ∧
    verify "secret-key" (issue "secret-key" "alice" 0 5) 5 = .ok "alice" ∧
    verify "secret-key" (issue "secret-key" "alice" 0 5) 5 ≠ .expired := by
  decide

/-- C8: `get_users` returns the accounts in creation order, hash-stripped,
with `skip`/`limit` clamped to the available range: it is the contiguous
sub-sequence from index `skip` of length `min limit (n - skip)`, and it is
the empty sequence (not an error) whenever `skip ≥ n`. -/
theorem get_users_pagination (s : UserService) (skip limit : Nat) :
    get_users s skip limit =
      ((s.users.map UserInDB.toUser).drop skip).take limit ∧
    (get_users s skip limit).length = min limit (s.users.length - skip) ∧
    (s.users.length ≤ skip → get_users s skip limit = []) := by
  refine ⟨?_, ?_, ?_⟩
  · simp [get_users, List.map_take, List.map_drop]
  · simp [get_users]
  · intro h
    simp [get_users, List.drop_eq_nil_of_le h]

theorem get_users_pagination_witness :
    get_users (initStore 0 0 0 0) 5 2 = [] :=
  (get_users_pagination (initStore 0 0 0 0) 5 2).2.2 (by decide)

/-- C9: a freshly constructed store contains exactly the two pre-seeded
accounts — an active admin with username "admin" and id 1 and an active
user with username "john_doe" and id 2 — and the first externally
registered account receives id 3, for every run of the constructor (any
clock values and salts). -/
theorem default_store_seeded (t1 s1 t2 s2 : Nat) :
    (initStore t1 s1 t2 s2).users.length = 2 ∧
    ((initStore t1 s1 t2 s2).users.map
        (fun u => (u.id, u.username, u.is_active, u.role))) =
      [(1, "admin", true, UserRole.admin),
        (2, "john_doe", true, UserRole.user)] ∧
    (initStore t1 s1 t2 s2).next_id = 3 ∧
    (∀ (now salt : Nat) (uc : UserCreate) (u : User) (s' : UserService),
      create_user (initStore t1 s1 t2 s2) now salt uc = (.ok u, s') →
      u.id = 3) := by
  refine ⟨?_, ?_, initStore_next_id t1 s1 t2 s2, ?_⟩
  · rw [initStore_users]
    rfl
  · rw [initStore_users]
    rfl
  · intro now salt uc u s' h
    by_cases h1 : (get_user_by_username (initStore t1 s1 t2 s2)
        uc.username).isSome = true
    · simp [create_user, h1] at h
    · by_cases h2 : (get_user_by_email (initStore t1 s1 t2 s2)
          uc.email).isSome = true
      · simp [create_user, h1, h2] at h
      · simp [create_user, h1, h2] at h
        have : u = (newRecord (initStore t1 s1 t2 s2) now salt uc).toUser :=
          h.1.symm
        rw [this]
        show (initStore t1 s1 t2 s2).next_id = 3
        exact initStore_next_id t1 s1 t2 s2

theorem default_store_seeded_witness :
    (initStore 11 12 13 14).next_id = 3 ∧
    (∀ (u : User) (s' : UserService),
      create_user (initStore 11 12 13 14) 20 21
          { username := "alice", email := "alice@x.com",
            password := "secret1" } = (.ok u, s') →
      u.id = 3) :=
  ⟨(default_store_seeded 11 12 13 14).2.2.1,
    fun u s' h =>
      (default_store_seeded 11 12 13 14).2.2.2 20 21
        { username := "alice", email := "alice@x.com",
          password := "secret1" } u s' h⟩

/-- C10: the user-update endpoint accepts a role change from any
authenticated active principal on their own account: for every active
principal whose role is user or moderator and whose id exists in the store,
updating their own id with `role = admin` succeeds and the stored account
with that id afterwards has role admin. -/
theorem self_role_escalation (s : UserService) (now : Nat) (cu : User)
    (up : UserUpdate) (hact : cu.is_active = true)
    (hrole : cu.role = .user ∨ cu.role = .moderator)
    (hup : up.role = some .admin)
    (hex : (get_user_by_id s cu.id).isSome = true) :
    ∃ (u : User) (s' : UserService),
      update_user_endpoint s now cu cu.id up = (.ok u, s') ∧
      u.role = .admin ∧
      ((s'.users.find? (fun v => v.id == cu.id)).map (fun v => v.role)) =
        some UserRole.admin := by
  have hga : get_current_active_user cu = .ok cu := by
    simp [get_current_active_user, hact]
  have hsome : (updateGo cu.id now up s.users).isSome = true := by
    rw [updateGo_isSome]
    simpa [get_user_by_id] using hex
  obtain ⟨p, hp⟩ := Option.isSome_iff_exists.mp hsome
  obtain ⟨a, hfind, hview, hfind'⟩ := updateGo_spec cu.id now up s.users p hp
  refine ⟨p.1, ⟨p.2, s.next_id⟩, ?_, ?_, ?_⟩
  · simp [update_user_endpoint, hga, update_user, hp, Except.bind]
  · rw [hview]
    simp [UserInDB.toUser, applyUpdate, hup]
  · rw [hfind']
    simp [applyUpdate, hup]

theorem self_role_escalation_witness :
    ∃ (u : User) (s' : UserService),
      update_user_endpoint (initStore 0 0 0 0) 9
          ⟨"john_doe", "john@example.com", some "John Doe", .user, true, 2,
            0, none⟩
          (User.mk "john_doe" "john@example.com" (some "John Doe") .user
            true 2 0 none).id
          { role := some .admin } = (.ok u, s') ∧
      u.role = .admin ∧
      ((s'.users.find? (fun v => v.id ==
          (User.mk "john_doe" "john@example.com" (some "John Doe") .user
            true 2 0 none).id)).map (fun v => v.role)) =
        some UserRole.admin :=
  self_role_escalation (initStore 0 0 0 0) 9
    ⟨"john_doe", "john@example.com", some "John Doe", .user, true, 2, 0,
      none⟩
    { role := some .admin } rfl (Or.inl rfl) rfl (by decide)

end FastAPIServer
